import Mathlib

/-!
Verification of the transaction search-and-aggregation engine of a real-estate
listing repository.

The repository's shipped code for this subsystem consists of the PostgreSQL
migration defining `parse_subway_time_max_minutes` and its partial index
(`idx_apart_details_subway_time_parsed`), plus the relational schema
(`SALES`, `RENTS`, `APART_DETAILS`, `APARTMENTS`, `STATES`).  The distance
normalizer and index predicate below are shallow embeddings of that SQL.
The validity filter, search executor and aggregator are not present as code;
they are modelled from the specification, as marked on each definition.
-/

namespace RealEstate

/-! ### Distance normalizer: embedding of `parse_subway_time_max_minutes`
(src/unnamed/part_001, migration 005, plpgsql). -/

/-- Maximal runs of decimal digits of a character list, left to right;
models `regexp_matches(subway_time_text, '\d+', 'g')`.  The first argument
is the reversed run currently being read. -/
def digitRunsAux : List Char → List Char → List (List Char)
  | cur, [] => if cur.isEmpty then [] else [cur.reverse]
  | cur, c :: cs =>
    if c.isDigit then digitRunsAux (c :: cur) cs
    else if cur.isEmpty then digitRunsAux [] cs
    else cur.reverse :: digitRunsAux [] cs

/-- All maximal decimal-digit runs occurring in a string, in order. -/
def digitRuns (s : String) : List (List Char) :=
  digitRunsAux [] s.data

/-- Numeric value of a digit run; models the `::INTEGER` cast of one
regexp match. -/
def digitRunValue (ds : List Char) : Nat :=
  ds.foldl (fun a c => a * 10 + (c.toNat - 48)) 0

/-- The integers extracted from a subway-time text, in order of occurrence;
models the `numbers INTEGER[]` array of the plpgsql function. -/
def subwayNumbers (s : String) : List Nat :=
  (digitRuns s).map digitRunValue

/-- Embedding of the plpgsql function `parse_subway_time_max_minutes`:
`NULL` or `''` input returns `NULL`; otherwise all digit runs are extracted
and, if any exist, the `FOREACH` loop starting from `numbers[1]` keeps the
largest; no digits gives `NULL`. -/
def parse_subway_time_max_minutes (t : Option String) : Option Nat :=
  match t with
  | none => none
  | some s =>
    if s = "" then none
    else
      match subwayNumbers s with
      | [] => none
      | n :: ns => some (List.foldl (fun m x => if x > m then x else m) n (n :: ns))

/-! ### Partial index `idx_apart_details_subway_time_parsed`
(src/unnamed/part_001).  A row of `apart_details` restricted to the columns
the index predicate reads; nullable SQL columns become `Option`. -/

/-- An `apart_details` row, restricted to the columns the partial index
predicate reads.  `is_deleted` is a nullable boolean column, `subway_time`
a nullable text column. -/
structure ApartDetailRow where
  apt_id : Nat
  subway_time : Option String
  is_deleted : Option Bool
  deriving DecidableEq

/-- Whether a row is covered by the partial index: the SQL `WHERE`
`is_deleted = FALSE AND subway_time IS NOT NULL AND subway_time != ''
AND parse_subway_time_max_minutes(subway_time) IS NOT NULL` evaluates to
TRUE.  Under SQL three-valued logic a `NULL` `is_deleted` makes
`is_deleted = FALSE` unknown, so the row is not indexed. -/
def inSubwayTimeParsedIndex (r : ApartDetailRow) : Bool :=
  match r.is_deleted, r.subway_time with
  | some false, some s =>
    decide (s ≠ "") && (parse_subway_time_max_minutes (some s)).isSome
  | _, _ => false

/-! ### Record model.  Modelled from the spec: the engine's record types are
described in the specification only; the shipped repository contains their
relational declarations (`SALES`, `RENTS`, `APARTMENTS`, `STATES`,
`APART_DETAILS`) but not the engine code over them. -/

/-- Modelled from the spec: the sale/rent tagged variant of a transaction.
A sale carries a transaction price and a cancellation flag
(`SALES.trans_price`, `SALES.is_canceled`, the latter tri-state since the
engine treats absent as not cancelled); a rent carries a deposit and a
monthly rent (`RENTS.deposit_price`, `RENTS.monthly_rent`; monthly rent 0
denotes a deposit-only lease). -/
inductive TransVariant where
  | sale (transPrice : Nat) (isCancelled : Option Bool)
  | rent (deposit : Nat) (monthlyRent : Nat)
  deriving DecidableEq

/-- Modelled from the spec: a transaction record shared between the sale and
rent variants.  `contractDate` is the date of legal effect as an abstract
time index (month granularity, matching the aggregation window arithmetic);
`isDeleted` is the tri-state soft-delete flag; `remarks` is the free-text
field that may carry the synthetic-test ("dummy") sentinel. -/
structure TransactionRecord where
  transId : Nat
  aptId : Nat
  contractDate : Nat
  exclusiveArea : ℚ
  floor : Int
  variant : TransVariant
  isDeleted : Option Bool
  remarks : Option String
  deriving DecidableEq

/-- The price used by range filters and aggregation: the transaction price
of a sale, the deposit of a rent. -/
def TransactionRecord.price (r : TransactionRecord) : Nat :=
  match r.variant with
  | .sale p _ => p
  | .rent d _ => d

/-- The cancellation flag: sale-only, absent on a rent record. -/
def TransactionRecord.isCancelled (r : TransactionRecord) : Option Bool :=
  match r.variant with
  | .sale _ c => c
  | .rent _ _ => none

/-- Whether the record is a sale. -/
def TransactionRecord.isSale (r : TransactionRecord) : Bool :=
  match r.variant with
  | .sale _ _ => true
  | .rent _ _ => false

/-- Replace the cancellation flag of a sale record; a no-op on a rent. -/
def TransactionRecord.withCancelled (r : TransactionRecord) (c : Option Bool) :
    TransactionRecord :=
  { r with variant := match r.variant with
      | .sale p _ => .sale p c
      | .rent d m => .rent d m }

/-- Modelled from the spec: apartment dimension row (`APARTMENTS`): id and
owning region. -/
structure Apartment where
  aptId : Nat
  regionId : Nat
  deriving DecidableEq

/-- Modelled from the spec: apartment detail row (`APART_DETAILS`) restricted
to the fields the executor reads: unit count, transit text, education text. -/
structure ApartmentDetail where
  aptDetailId : Nat
  aptId : Nat
  totalHouseholdCnt : Nat
  subwayTime : Option String
  educationFacility : Option String
  deriving DecidableEq

/-- Modelled from the spec: the base store the engine reads: transaction
records, dimension rows, and the configured dummy sentinel marking synthetic
test data. -/
structure Store where
  records : List TransactionRecord
  apartments : List Apartment
  details : List ApartmentDetail
  dummy : String

/-! ### Validity filter.  Modelled from the spec (§4.1): the repository ships
only the relational declarations of the flags, not the filter code. -/

/-- True exactly on `some true`: the tri-state flag is explicitly set. -/
def flagTrue : Option Bool → Bool
  | some true => true
  | _ => false

/-- Modelled from the spec: `isValid` — a record is valid iff `isDeleted` is
not true, and (for sales) `isCancelled` is not true, and `remarks` is not the
dummy sentinel; an absent or null flag counts as false. -/
def isValid (dummy : String) (r : TransactionRecord) : Bool :=
  !flagTrue r.isDeleted && !flagTrue r.isCancelled && !(r.remarks == some dummy)

/-! ### Search executor.  Modelled from the spec (§4.4). -/

/-- Modelled from the spec: a filter specification of optional ANDed
predicates.  No caller-requested sort key is modelled: all claims under
verification concern the default ordering. -/
structure FilterSpec where
  regionId : Option Nat := none
  aptId : Option Nat := none
  dateRange : Option (Nat × Nat) := none
  priceRange : Option (Nat × Nat) := none
  areaRange : Option (ℚ × ℚ) := none
  maxTransitMinutes : Option Nat := none
  minUnitCount : Option Nat := none
  requireEducation : Bool := false

/-- A supplied inclusive range over `Nat` accepts a value; an absent range
imposes no constraint. -/
def checkRange (ro : Option (Nat × Nat)) (v : Nat) : Bool :=
  match ro with
  | none => true
  | some (lo, hi) => lo ≤ v && v ≤ hi

/-- A supplied inclusive range over `ℚ` accepts a value; an absent range
imposes no constraint. -/
def checkRangeQ (ro : Option (ℚ × ℚ)) (v : ℚ) : Bool :=
  match ro with
  | none => true
  | some (lo, hi) => lo ≤ v && v ≤ hi

/-- Every supplied range is well-formed: lower bound at most upper bound. -/
def rangesValid (f : FilterSpec) : Bool :=
  (match f.dateRange with | none => true | some (lo, hi) => lo ≤ hi) &&
  (match f.priceRange with | none => true | some (lo, hi) => lo ≤ hi) &&
  (match f.areaRange with | none => true | some (lo, hi) => lo ≤ hi)

/-- Region of an apartment id, looked up in the dimension table. -/
def aptRegion (st : Store) (a : Nat) : Option Nat :=
  (st.apartments.find? (fun ap => ap.aptId == a)).map Apartment.regionId

/-- The detail row the executor uses for an apartment: the one with the
lowest detail id, the deterministic pick the spec requires (§7) when the
store holds duplicates. -/
def aptDetail (st : Store) (a : Nat) : Option ApartmentDetail :=
  (st.details.filter (fun d => d.aptId == a)).foldl
    (fun best d => match best with
      | none => some d
      | some b => if d.aptDetailId < b.aptDetailId then some d else some b)
    none

/-- Modelled from the spec: a record satisfies every supplied predicate of
the filter.  A transit-minutes filter requires a present parsed distance
(via `parse_subway_time_max_minutes`); apartments lacking that data are
excluded, not treated as matching. -/
def matchesFilter (st : Store) (f : FilterSpec) (r : TransactionRecord) : Bool :=
  (match f.aptId with | none => true | some a => r.aptId == a) &&
  (match f.regionId with | none => true | some g => aptRegion st r.aptId == some g) &&
  checkRange f.dateRange r.contractDate &&
  checkRange f.priceRange r.price &&
  checkRangeQ f.areaRange r.exclusiveArea &&
  (match f.maxTransitMinutes with
   | none => true
   | some m =>
     match aptDetail st r.aptId with
     | none => false
     | some d =>
       match parse_subway_time_max_minutes d.subwayTime with
       | none => false
       | some v => v ≤ m) &&
  (match f.minUnitCount with
   | none => true
   | some n =>
     match aptDetail st r.aptId with
     | none => false
     | some d => n ≤ d.totalHouseholdCnt) &&
  (if f.requireEducation then
     match aptDetail st r.aptId with
     | none => false
     | some d => match d.educationFacility with
       | none => false
       | some e => decide (e ≠ "")
   else true)

/-- The default result order: contract date descending, then transaction id
ascending as the deterministic tie-break. -/
def defaultLE (r₁ r₂ : TransactionRecord) : Prop :=
  r₂.contractDate < r₁.contractDate ∨
    (r₁.contractDate = r₂.contractDate ∧ r₁.transId ≤ r₂.transId)

instance : DecidableRel defaultLE := fun r₁ r₂ => by
  unfold defaultLE; infer_instance

instance : IsTotal TransactionRecord defaultLE :=
  ⟨fun r₁ r₂ => by unfold defaultLE; omega⟩

instance : IsTrans TransactionRecord defaultLE :=
  ⟨fun r₁ r₂ r₃ h₁ h₂ => by unfold defaultLE at *; omega⟩

/-- The failure taxonomy of the executor: malformed range bounds. -/
inductive SearchError where
  | invalidFilter
  deriving DecidableEq

/-- The index the executor chose for a query: the fallback full scan, or the
by-apartment index. -/
inductive IndexChoice where
  | scan
  | byApartment

/-- The candidate rows an index hands to the executor before the residual
predicates run: the by-apartment index narrows to one apartment's rows when
the filter pins an apartment id, the scan path hands over the whole base
store. -/
def candidates : IndexChoice → Store → FilterSpec → List TransactionRecord
  | .scan, st, _ => st.records
  | .byApartment, st, f =>
    match f.aptId with
    | some a => st.records.filter (fun r => r.aptId == a)
    | none => st.records

/-- Modelled from the spec: the search executor.  Range bounds are checked
before any index is consulted; then the chosen index's candidates are
filtered through the validity overlay and the residual predicates and the
survivors are returned in the default order. -/
def searchVia (i : IndexChoice) (st : Store) (f : FilterSpec) :
    Except SearchError (List TransactionRecord) :=
  if rangesValid f then
    .ok (List.insertionSort defaultLE
      ((candidates i st f).filter (fun r => isValid st.dummy r && matchesFilter st f r)))
  else
    .error .invalidFilter

/-- Modelled from the spec: `search(filterSpec)`, the public entry point. -/
def search (st : Store) (f : FilterSpec) : Except SearchError (List TransactionRecord) :=
  searchVia .scan st f

/-! ### Aggregator.  Modelled from the spec (§4.5). -/

/-- Result of `aggregate`: averages are absent, never zero, when no record
matched. -/
structure AggResult where
  avgPrice : Option ℚ
  avgArea : Option ℚ
  sampleCount : Nat
  deriving DecidableEq

/-- Running totals of the aggregation pass. -/
structure AggAcc where
  count : Nat
  sumPrice : ℚ
  sumArea : ℚ
  deriving DecidableEq

/-- A record belongs to the aggregation sample for apartment `a` and the
trailing window `[we - len, we]` (inclusive–inclusive): it is valid, belongs
to the apartment, and its contract date lies in the window. -/
def inWindow (dummy : String) (a we len : Nat) (r : TransactionRecord) : Bool :=
  isValid dummy r && r.aptId == a &&
    ((we - len) ≤ r.contractDate && r.contractDate ≤ we)

/-- The sample set of an `aggregate` call: the valid transactions of the
apartment whose contract date lies in the trailing window. -/
def windowRecords (st : Store) (a we len : Nat) : List TransactionRecord :=
  st.records.filter (inWindow st.dummy a we len)

/-- One step of the aggregation pass: a record in the sample contributes to
the count and to both sums, any other record leaves the totals unchanged. -/
def aggStep (dummy : String) (a we len : Nat) (acc : AggAcc) (r : TransactionRecord) :
    AggAcc :=
  if inWindow dummy a we len r then
    ⟨acc.count + 1, acc.sumPrice + (r.price : ℚ), acc.sumArea + r.exclusiveArea⟩
  else acc

/-- Modelled from the spec: `aggregate(apartmentId, windowEnd,
windowLengthMonths)` — one pass over the base store accumulating count and
sums over the sample set, then the arithmetic means, absent when the count
is zero. -/
def aggregate (st : Store) (a we len : Nat) : AggResult :=
  let acc := st.records.foldl (aggStep st.dummy a we len) (⟨0, 0, 0⟩ : AggAcc)
  if acc.count = 0 then
    ⟨none, none, acc.count⟩
  else
    ⟨some (acc.sumPrice / (acc.count : ℚ)), some (acc.sumArea / (acc.count : ℚ)), acc.count⟩

/-! ### Mutation.  Modelled from the spec: soft-deleting a record flips its
flag in place; the record stays physically present in the base store. -/

/-- Modelled from the spec: set the soft-delete flag of the record with the
given transaction id to true, in place. -/
def setDeleted (st : Store) (tid : Nat) : Store :=
  { st with
    records := st.records.map
        (fun r => if r.transId = tid then { r with isDeleted := some true } else r) }

/-! ### Concrete example data used to instantiate the theorems. -/

/-- A valid sale: price 500, contract date 100. -/
def exRecord1 : TransactionRecord :=
  ⟨1, 1, 100, 84, 5, .sale 500 (some false), some false, none⟩

/-- A valid sale with absent flags: price 700, contract date 101. -/
def exRecord2 : TransactionRecord :=
  ⟨2, 1, 101, 84, 3, .sale 700 none, none, none⟩

/-- A cancelled but not soft-deleted sale: physically present, never valid. -/
def exRecordCancelled : TransactionRecord :=
  ⟨3, 1, 102, 84, 2, .sale 900 (some true), some false, none⟩

/-- The apartment the example records belong to, in region 10. -/
def exApartment : Apartment := ⟨1, 10⟩

/-- The example apartment's detail row. -/
def exDetail : ApartmentDetail := ⟨1, 1, 300, some "5~10분이내", some "초등학교"⟩

/-- A small base store: three sale records, one apartment, one detail row. -/
def exStore : Store :=
  ⟨[exRecord1, exRecord2, exRecordCancelled], [exApartment], [exDetail], "TEST_DUMMY"⟩

/-- The all-absent filter specification: no predicate supplied. -/
def emptyFilter : FilterSpec := {}

/-- A filter whose price range is inverted: lower bound 800 above upper
bound 600. -/
def invertedPriceFilter : FilterSpec := { priceRange := some (800, 600) }

/-- A filter naming a region id that no apartment of `exStore` has. -/
def unknownRegionFilter : FilterSpec := { regionId := some 99 }

/-- A filter naming an apartment id that `exStore` does not contain. -/
def unknownAptFilter : FilterSpec := { aptId := some 99 }

/-! ### Helper lemmas about the fold computing the maximum. -/

theorem foldl_iteMax_eq_max : ∀ (l : List Nat) (a : Nat),
    List.foldl (fun m x => if x > m then x else m) a l = List.foldl max a l := by
  intro l
  induction l with
  | nil => intro a; rfl
  | cons b t ih =>
    intro a
    simp only [List.foldl]
    rw [ih]
    congr 1
    by_cases h : b > a
    · simp [h, Nat.max_eq_right (Nat.le_of_lt h)]
    · simp [h, Nat.max_eq_left (Nat.le_of_not_lt h)]

theorem le_foldl_max : ∀ (l : List Nat) (a : Nat), a ≤ List.foldl max a l := by
  intro l
  induction l with
  | nil => intro a; exact Nat.le_refl a
  | cons b t ih =>
    intro a
    exact Nat.le_trans (Nat.le_max_left a b) (ih (max a b))

theorem foldl_max_upper : ∀ (l : List Nat) (a x : Nat), x ∈ l → x ≤ List.foldl max a l := by
  intro l
  induction l with
  | nil => intro a x hx; cases hx
  | cons b t ih =>
    intro a x hx
    rcases List.mem_cons.mp hx with h | h
    · subst h
      exact Nat.le_trans (Nat.le_max_right a x) (le_foldl_max t (max a x))
    · exact ih (max a b) x h

theorem foldl_max_mem : ∀ (l : List Nat) (a : Nat),
    List.foldl max a l = a ∨ List.foldl max a l ∈ l := by
  intro l
  induction l with
  | nil => intro a; exact Or.inl rfl
  | cons b t ih =>
    intro a
    rcases ih (max a b) with h | h
    · rcases max_choice a b with h1 | h1
      · exact Or.inl (h.trans h1)
      · exact Or.inr (List.mem_cons.mpr (Or.inl (h.trans h1)))
    · exact Or.inr (List.mem_cons_of_mem b h)

/-- A present result of the parser is a member of the extracted numbers and
an upper bound of them. -/
theorem parse_some_bounds {t : Option String} {v : Nat}
    (h : parse_subway_time_max_minutes t = some v) :
    ∃ s, t = some s ∧ v ∈ subwayNumbers s ∧ ∀ x ∈ subwayNumbers s, x ≤ v := by
  match t with
  | none => exact absurd h (by simp [parse_subway_time_max_minutes])
  | some s =>
    refine ⟨s, rfl, ?_⟩
    simp only [parse_subway_time_max_minutes] at h
    by_cases hs : s = ""
    · rw [if_pos hs] at h; cases h
    · rw [if_neg hs] at h
      cases hn : subwayNumbers s with
      | nil => rw [hn] at h; cases h
      | cons n ns =>
        rw [hn] at h
        have hv : List.foldl max n (n :: ns) = v := by
          have hfold := foldl_iteMax_eq_max (n :: ns) n
          simpa [hfold] using h
        have hv' : List.foldl max n ns = v := by
          simpa [Nat.max_self] using hv
        subst hv'
        constructor
        · rcases foldl_max_mem ns n with hm | hm
          · rw [hm]; exact List.mem_cons_self n ns
          · exact List.mem_cons_of_mem n hm
        · intro x hx
          rcases List.mem_cons.mp hx with hx | hx
          · rw [hx]; exact le_foldl_max ns n
          · exact foldl_max_upper ns n x hx

/-- The parser is absent exactly on null input or input without digits
(the empty string has no digit runs, so it is covered by the second case). -/
theorem parse_eq_none_iff (t : Option String) :
    parse_subway_time_max_minutes t = none ↔
      t = none ∨ ∃ s, t = some s ∧ subwayNumbers s = [] := by
  cases t with
  | none => simp [parse_subway_time_max_minutes]
  | some s =>
    constructor
    · intro h
      refine Or.inr ⟨s, rfl, ?_⟩
      simp only [parse_subway_time_max_minutes] at h
      by_cases hs : s = ""
      · subst hs; decide
      · rw [if_neg hs] at h
        cases hn : subwayNumbers s with
        | nil => rfl
        | cons n ns => rw [hn] at h; cases h
    · rintro (h | ⟨s', hs', hn⟩)
      · cases h
      · have hse : s = s' := Option.some.inj hs'
        subst hse
        simp only [parse_subway_time_max_minutes]
        by_cases hs : s = ""
        · rw [if_pos hs]
        · rw [if_neg hs, hn]

/-! ### Theorems settling the claims. -/

/-- C1: `parseMaxMinutes` returns the maximum of all maximal decimal-digit
runs occurring in the text — a present value is one of the extracted run
values and an upper bound of all of them — and is absent exactly when the
text is null, empty, or contains no digits; the spec's five examples hold. -/
theorem parse_max_minutes_is_max_of_digit_runs :
    (∀ t, parse_subway_time_max_minutes t = none ↔
       (t = none ∨ ∃ s, t = some s ∧ subwayNumbers s = [])) ∧
    (∀ t v, parse_subway_time_max_minutes t = some v →
       ∃ s, t = some s ∧ v ∈ subwayNumbers s ∧ ∀ x ∈ subwayNumbers s, x ≤ v) ∧
    parse_subway_time_max_minutes (some "5~10분이내") = some 10 ∧
    parse_subway_time_max_minutes (some "15분이내") = some 15 ∧
    parse_subway_time_max_minutes (some "") = none ∧
    parse_subway_time_max_minutes none = none ∧
    parse_subway_time_max_minutes (some "역세권") = none :=
  ⟨parse_eq_none_iff, fun _ _ h => parse_some_bounds h,
   by decide, by decide, by decide, rfl, by decide⟩

/-- C1 witness: the membership-and-bound characterization instantiated at
the concrete input `"5~10분이내"`, whose parse is `some 10`. -/
theorem parse_max_minutes_is_max_witness :
    ∃ s, (some "5~10분이내" : Option String) = some s ∧
      10 ∈ subwayNumbers s ∧ ∀ x ∈ subwayNumbers s, x ≤ 10 :=
  parse_max_minutes_is_max_of_digit_runs.2.1 (some "5~10분이내") 10 (by decide)

/-- C8: the parser is a pure function of its text argument: equal inputs
give equal outputs, so the value may be precomputed at indexing time and
reused per query (the SQL function is declared `IMMUTABLE` for this reason). -/
theorem parse_max_minutes_deterministic :
    ∀ t₁ t₂ : Option String, t₁ = t₂ →
      parse_subway_time_max_minutes t₁ = parse_subway_time_max_minutes t₂ :=
  fun _ _ h => h ▸ rfl

/-- C8 witness: determinism instantiated at the concrete input `"15분이내"`. -/
theorem parse_max_minutes_deterministic_witness :
    parse_subway_time_max_minutes (some "15분이내") =
      parse_subway_time_max_minutes (some "15분이내") :=
  parse_max_minutes_deterministic (some "15분이내") (some "15분이내") rfl

/-- C9: a present parser result is the value of one of the decimal digit
runs occurring in the text, hence a non-negative integer; sign characters
are not part of the extraction, so `"-5분"` yields `5`. -/
theorem parse_value_is_digit_run_value :
    (∀ t v, parse_subway_time_max_minutes t = some v →
       ∃ s, t = some s ∧ v ∈ (digitRuns s).map digitRunValue) ∧
    parse_subway_time_max_minutes (some "-5분") = some 5 := by
  constructor
  · intro t v h
    obtain ⟨s, hts, hmem, _⟩ := parse_some_bounds h
    exact ⟨s, hts, hmem⟩
  · decide

/-- C9 witness: membership instantiated at the concrete input `"-5분"`,
whose parse is `some 5`. -/
theorem parse_value_is_digit_run_value_witness :
    ∃ s, (some "-5분" : Option String) = some s ∧
      5 ∈ (digitRuns s).map digitRunValue :=
  parse_value_is_digit_run_value.1 (some "-5분") 5 (by decide)

/-- C10: the partial index `idx_apart_details_subway_time_parsed` covers
exactly the rows whose `is_deleted` column is explicitly `FALSE`, whose
`subway_time` is non-null and non-empty, and whose parsed transit time is
present; in particular a row with `is_deleted = NULL` is excluded. -/
theorem subway_index_coverage :
    ∀ r : ApartDetailRow,
      (inSubwayTimeParsedIndex r = true ↔
        r.is_deleted = some false ∧ ∃ s, r.subway_time = some s ∧ s ≠ "" ∧
          (parse_subway_time_max_minutes (some s)).isSome = true) ∧
      (r.is_deleted = none → inSubwayTimeParsedIndex r = false) := by
  rintro ⟨a, stime, sdel⟩
  constructor
  · cases sdel with
    | none => simp [inSubwayTimeParsedIndex]
    | some b =>
      cases b with
      | false =>
        cases stime with
        | none => simp [inSubwayTimeParsedIndex]
        | some s => simp [inSubwayTimeParsedIndex]
      | true => simp [inSubwayTimeParsedIndex]
  · intro h
    have : sdel = none := h
    subst this
    rfl

/-- C10 witness: a row with a parseable transit text but a `NULL`
`is_deleted` column is not covered by the index. -/
theorem subway_index_coverage_witness :
    inSubwayTimeParsedIndex ⟨1, some "5분", none⟩ = false :=
  (subway_index_coverage ⟨1, some "5분", none⟩).2 rfl

/-! ### Helper lemmas about the validity filter. -/

theorem flagTrue_iff (o : Option Bool) : flagTrue o = true ↔ o = some true := by
  cases o with
  | none => simp [flagTrue]
  | some b => cases b <;> simp [flagTrue]

theorem isValid_not_cancelled {dummy : String} {r : TransactionRecord}
    (h : isValid dummy r = true) : r.isCancelled ≠ some true := by
  intro hc
  have : flagTrue r.isCancelled = true := (flagTrue_iff _).mpr hc
  simp [isValid, this] at h

theorem isValid_not_deleted {dummy : String} {r : TransactionRecord}
    (h : isValid dummy r = true) : r.isDeleted ≠ some true := by
  intro hd
  have : flagTrue r.isDeleted = true := (flagTrue_iff _).mpr hd
  simp [isValid, this] at h

theorem isSale_and_cancelled_iff (r : TransactionRecord) :
    (r.isSale = true ∧ r.isCancelled = some true) ↔ r.isCancelled = some true := by
  cases hv : r.variant with
  | sale p c => simp [TransactionRecord.isSale, TransactionRecord.isCancelled, hv]
  | rent d m => simp [TransactionRecord.isSale, TransactionRecord.isCancelled, hv]

/-- C2: `isValid` returns false exactly when the record is soft-deleted, a
cancelled sale, or marked with the dummy sentinel; an absent or null
`isDeleted`/`isCancelled` flag behaves exactly like an explicit false. -/
theorem isValid_false_iff :
    ∀ (dummy : String) (r : TransactionRecord),
      (isValid dummy r = false ↔
        (r.isDeleted = some true ∨ (r.isSale = true ∧ r.isCancelled = some true) ∨
          r.remarks = some dummy)) ∧
      isValid dummy { r with isDeleted := none } =
        isValid dummy { r with isDeleted := some false } ∧
      isValid dummy (r.withCancelled none) = isValid dummy (r.withCancelled (some false)) := by
  intro dummy r
  refine ⟨?_, ?_, ?_⟩
  · rw [isSale_and_cancelled_iff]
    cases hd : flagTrue r.isDeleted <;> cases hc : flagTrue r.isCancelled <;>
      cases hr : (r.remarks == some dummy) <;>
        simp [isValid, hd, hc, hr, ← flagTrue_iff, ← beq_iff_eq (a := r.remarks)]
  · simp [isValid, flagTrue, TransactionRecord.isCancelled]
  · cases hv : r.variant with
    | sale p c =>
      simp [isValid, flagTrue, TransactionRecord.withCancelled,
        TransactionRecord.isCancelled, hv]
    | rent d m =>
      simp [isValid, flagTrue, TransactionRecord.withCancelled,
        TransactionRecord.isCancelled, hv]

/-- C2 witness: the characterization instantiated at the cancelled example
sale record, which is invalid precisely because of its cancellation flag. -/
theorem isValid_false_iff_witness :
    isValid "TEST_DUMMY" exRecordCancelled = false ↔
      (exRecordCancelled.isDeleted = some true ∨
        (exRecordCancelled.isSale = true ∧ exRecordCancelled.isCancelled = some true) ∨
        exRecordCancelled.remarks = some "TEST_DUMMY") :=
  (isValid_false_iff "TEST_DUMMY" exRecordCancelled).1

/-! ### Helper lemmas about the search executor. -/

theorem searchVia_ok_iff {i : IndexChoice} {st : Store} {f : FilterSpec}
    {out : List TransactionRecord}
    (h : searchVia i st f = .ok out) (r : TransactionRecord) :
    r ∈ out ↔
      r ∈ candidates i st f ∧ isValid st.dummy r = true ∧ matchesFilter st f r = true := by
  unfold searchVia at h
  by_cases hv : rangesValid f
  · rw [if_pos hv] at h
    have hout := (Except.ok.inj h).symm
    subst hout
    simp [List.mem_insertionSort, List.mem_filter, Bool.and_eq_true, and_assoc]
  · rw [if_neg hv] at h
    cases h

theorem mem_candidates {i : IndexChoice} {st : Store} {f : FilterSpec}
    {r : TransactionRecord} (h : r ∈ candidates i st f) : r ∈ st.records := by
  cases i with
  | scan => exact h
  | byApartment =>
    cases hf : f.aptId with
    | none => rw [candidates, hf] at h; exact h
    | some a => rw [candidates, hf] at h; exact List.mem_of_mem_filter h

/-- C3: soundness and completeness of `search` — a record is in the output
exactly when it is in the base store, is valid, and satisfies every supplied
predicate of the filter specification (absent predicates unconstrained,
supplied ones conjoined by `matchesFilter`). -/
theorem search_sound_complete :
    ∀ (st : Store) (f : FilterSpec) (out : List TransactionRecord),
      search st f = .ok out →
        ∀ r, r ∈ out ↔
          r ∈ st.records ∧ isValid st.dummy r = true ∧ matchesFilter st f r = true := by
  intro st f out h r
  exact searchVia_ok_iff h r

/-- C3 witness: on the example store with the empty filter the output is the
two valid records in default order, and membership of the valid record
`exRecord1` is equivalent to it being a valid, predicate-satisfying base
record. -/
theorem search_sound_complete_witness :
    exRecord1 ∈ [exRecord2, exRecord1] ↔
      exRecord1 ∈ exStore.records ∧ isValid exStore.dummy exRecord1 = true ∧
        matchesFilter exStore emptyFilter exRecord1 = true :=
  search_sound_complete exStore emptyFilter [exRecord2, exRecord1] rfl exRecord1

/-- C4: error handling of the executor.  A filter with an inverted range
fails with `InvalidFilter` uniformly — the result is the same for every
store and every index choice, so no index lookup happens before the
failure — while an unknown region id or an unknown apartment id (under
referential integrity of the base store) yields `ok []`, not an error. -/
theorem search_invalid_filter_and_unknown_ids :
    ∀ (i : IndexChoice) (st : Store) (f : FilterSpec),
      ((∃ lo hi : Nat, (f.dateRange = some (lo, hi) ∨ f.priceRange = some (lo, hi)) ∧
          hi < lo) ∨
        (∃ lo hi : ℚ, f.areaRange = some (lo, hi) ∧ hi < lo) →
          searchVia i st f = .error .invalidFilter) ∧
      (rangesValid f = true →
        ∀ g, f.regionId = some g → (∀ ap ∈ st.apartments, ap.regionId ≠ g) →
          searchVia i st f = .ok []) ∧
      (rangesValid f = true →
        ∀ a, f.aptId = some a → (∀ ap ∈ st.apartments, ap.aptId ≠ a) →
          (∀ r ∈ st.records, ∃ ap ∈ st.apartments, ap.aptId = r.aptId) →
          searchVia i st f = .ok []) := by
  intro i st f
  refine ⟨?_, ?_, ?_⟩
  · intro hcase
    have hrv : rangesValid f = false := by
      unfold rangesValid
      rcases hcase with ⟨lo, hi, hr | hr, hlt⟩ | ⟨lo, hi, hr, hlt⟩
      · simp [hr]; omega
      · simp [hr]; omega
      · simp [hr, not_le.mpr hlt]
    simp [searchVia, hrv]
  · intro hrv g hg hreg
    have hempty :
        (candidates i st f).filter
          (fun r => isValid st.dummy r && matchesFilter st f r) = [] := by
      rw [List.filter_eq_nil_iff]
      intro r _
      have hm : matchesFilter st f r = false := by
        have hne : aptRegion st r.aptId ≠ some g := by
          unfold aptRegion
          cases hfind : st.apartments.find? (fun ap => ap.aptId == r.aptId) with
          | none => simp
          | some ap =>
            have := hreg ap (List.mem_of_find?_eq_some hfind)
            simp [this]
        have hb : (aptRegion st r.aptId == some g) = false :=
          beq_eq_false_iff_ne.mpr hne
        simp [matchesFilter, hg, hb]
      simp [hm]
    simp [searchVia, hrv, hempty]
  · intro hrv a ha hapt hfk
    have hempty :
        (candidates i st f).filter
          (fun r => isValid st.dummy r && matchesFilter st f r) = [] := by
      rw [List.filter_eq_nil_iff]
      intro r hr
      obtain ⟨ap, hmem, hap⟩ := hfk r (mem_candidates hr)
      have hne : r.aptId ≠ a := fun he => hapt ap hmem (hap.trans he)
      have hb : (r.aptId == a) = false := beq_eq_false_iff_ne.mpr hne
      have hm : matchesFilter st f r = false := by
        simp [matchesFilter, ha, hb]
      simp [hm]
    simp [searchVia, hrv, hempty]

/-- C4 witness: on the example store the spec's inverted range
`priceRange = (800, 600)` fails with `InvalidFilter`, while the unknown
region id 99 and the unknown apartment id 99 each return the empty
sequence. -/
theorem search_invalid_filter_and_unknown_ids_witness :
    searchVia .scan exStore invertedPriceFilter = .error .invalidFilter ∧
      searchVia .scan exStore unknownRegionFilter = .ok [] ∧
      searchVia .scan exStore unknownAptFilter = .ok [] :=
  ⟨(search_invalid_filter_and_unknown_ids .scan exStore invertedPriceFilter).1
      (Or.inl ⟨800, 600, Or.inr rfl, by norm_num⟩),
   (search_invalid_filter_and_unknown_ids .scan exStore unknownRegionFilter).2.1
      rfl 99 rfl (by decide),
   (search_invalid_filter_and_unknown_ids .scan exStore unknownAptFilter).2.2
      rfl 99 rfl (by decide) (by decide)⟩

/-! ### Helper lemmas about the aggregator. -/

theorem aggStep_foldl (dummy : String) (a we len : Nat) :
    ∀ (l : List TransactionRecord) (c : AggAcc),
      l.foldl (aggStep dummy a we len) c =
        ⟨c.count + (l.filter (inWindow dummy a we len)).length,
         c.sumPrice +
           ((l.filter (inWindow dummy a we len)).map (fun r => (r.price : ℚ))).sum,
         c.sumArea +
           ((l.filter (inWindow dummy a we len)).map TransactionRecord.exclusiveArea).sum⟩ := by
  intro l
  induction l with
  | nil => intro c; simp
  | cons r t ih =>
    intro c
    rw [List.foldl_cons, ih]
    cases hw : inWindow dummy a we len r with
    | false => simp [aggStep, hw]
    | true =>
      simp [aggStep, hw, List.filter_cons]
      refine ⟨by omega, by ring, by ring⟩

theorem aggregate_example : aggregate exStore 1 101 1 = ⟨some 600, some 84, 2⟩ := by
  have h := aggStep_foldl exStore.dummy 1 101 1 exStore.records (⟨0, 0, 0⟩ : AggAcc)
  have hw : exStore.records.filter (inWindow exStore.dummy 1 101 1) =
      [exRecord1, exRecord2] := rfl
  rw [hw] at h
  unfold aggregate
  rw [h]
  norm_num [exRecord1, exRecord2, TransactionRecord.price]

/-- C5: `aggregate` returns the count of the valid in-window transactions of
the apartment together with the arithmetic means of their prices and areas,
the means being absent (not zero) when the count is zero; on the example
store, two matching records with prices 500 and 700 average to 600. -/
theorem aggregate_mean :
    ∀ (st : Store) (a we len : Nat),
      (aggregate st a we len).sampleCount = (windowRecords st a we len).length ∧
      (aggregate st a we len).avgPrice =
        (if (windowRecords st a we len).length = 0 then none
         else some (((windowRecords st a we len).map (fun r => (r.price : ℚ))).sum /
           ((windowRecords st a we len).length : ℚ))) ∧
      (aggregate st a we len).avgArea =
        (if (windowRecords st a we len).length = 0 then none
         else some (((windowRecords st a we len).map TransactionRecord.exclusiveArea).sum /
           ((windowRecords st a we len).length : ℚ))) ∧
      aggregate exStore 1 101 1 = ⟨some 600, some 84, 2⟩ := by
  intro st a we len
  have hfold := aggStep_foldl st.dummy a we len st.records (⟨0, 0, 0⟩ : AggAcc)
  have hagg :
      aggregate st a we len =
        (if (windowRecords st a we len).length = 0 then
          ⟨none, none, (windowRecords st a we len).length⟩
         else
          ⟨some (((windowRecords st a we len).map (fun r => (r.price : ℚ))).sum /
             ((windowRecords st a we len).length : ℚ)),
           some (((windowRecords st a we len).map TransactionRecord.exclusiveArea).sum /
             ((windowRecords st a we len).length : ℚ)),
           (windowRecords st a we len).length⟩ : AggResult) := by
    unfold aggregate
    rw [hfold]
    simp [windowRecords]
  rcases hzero : (windowRecords st a we len).length with _ | n
  · rw [hagg, hzero]
    exact ⟨rfl, rfl, rfl, aggregate_example⟩
  · rw [hagg, hzero]
    exact ⟨rfl, rfl, rfl, aggregate_example⟩

/-- C5 witness: the zero-sample behaviour at an apartment id absent from the
example store — count 0 and absent averages — next to the concrete two-record
average of 600. -/
theorem aggregate_mean_witness :
    aggregate exStore 99 101 1 = ⟨none, none, 0⟩ ∧
      aggregate exStore 1 101 1 = ⟨some 600, some 84, 2⟩ :=
  ⟨by decide, (aggregate_mean exStore 99 101 1).2.2.2⟩

/-! ### Helper lemmas about validity-changing mutations. -/

theorem inWindow_valid {dummy : String} {a we len : Nat} {r : TransactionRecord}
    (h : inWindow dummy a we len r = true) : isValid dummy r = true := by
  simp only [inWindow, Bool.and_eq_true] at h
  exact h.1.1

theorem setDeleted_mem_ne {st : Store} {tid : Nat} {dummy : String}
    {r : TransactionRecord} (hr : r ∈ (setDeleted st tid).records)
    (hv : isValid dummy r = true) : r.transId ≠ tid := by
  intro he
  simp only [setDeleted, List.mem_map] at hr
  obtain ⟨x, _, hfx⟩ := hr
  by_cases hxt : x.transId = tid
  · rw [if_pos hxt] at hfx
    have hdel : r.isDeleted = some true := by rw [← hfx]
    exact isValid_not_deleted hv hdel
  · rw [if_neg hxt] at hfx
    exact hxt (hfx ▸ he)

/-- C6: a cancelled sale never surfaces — every record in any `search`
output and every record of any `aggregate` sample set has a cancellation
flag other than explicit true, for every index choice and every reachable
store; soft-deleting a record keeps the base store's size unchanged
(physically present) yet every subsequent `search` output and `aggregate`
sample set excludes the soft-deleted transaction id, with no rebuild — the
same incrementally maintained executor runs on the mutated store. -/
theorem cancelled_or_deleted_never_visible :
    ∀ (i : IndexChoice) (st : Store) (f : FilterSpec) (out : List TransactionRecord)
      (a we len tid : Nat),
      (searchVia i st f = .ok out → ∀ r ∈ out, r.isCancelled ≠ some true) ∧
      (∀ r ∈ windowRecords st a we len, r.isCancelled ≠ some true) ∧
      (setDeleted st tid).records.length = st.records.length ∧
      (searchVia i (setDeleted st tid) f = .ok out → ∀ r ∈ out, r.transId ≠ tid) ∧
      (∀ r ∈ windowRecords (setDeleted st tid) a we len, r.transId ≠ tid) := by
  intro i st f out a we len tid
  refine ⟨?_, ?_, ?_, ?_, ?_⟩
  · intro h r hr
    exact isValid_not_cancelled ((searchVia_ok_iff h r).mp hr).2.1
  · intro r hr
    exact isValid_not_cancelled (inWindow_valid (List.mem_filter.mp hr).2)
  · simp [setDeleted]
  · intro h r hr
    obtain ⟨hc, hv, _⟩ := (searchVia_ok_iff h r).mp hr
    exact setDeleted_mem_ne (mem_candidates hc) hv
  · intro r hr
    obtain ⟨hc, hw⟩ := List.mem_filter.mp hr
    exact setDeleted_mem_ne hc (inWindow_valid hw)

/-- C6 witness: on the example store the cancelled sale `exRecordCancelled`
is physically present but missing from the empty-filter search output, and
after soft-deleting transaction 1 the search output of the mutated store
contains no record with that id. -/
theorem cancelled_or_deleted_never_visible_witness :
    (∀ r ∈ [exRecord2, exRecord1], r.isCancelled ≠ some true) ∧
      (∀ r ∈ [exRecord2], r.transId ≠ 1) :=
  ⟨(cancelled_or_deleted_never_visible .scan exStore emptyFilter
      [exRecord2, exRecord1] 1 101 1 1).1 rfl,
   (cancelled_or_deleted_never_visible .scan exStore emptyFilter
      [exRecord2] 1 101 1 1).2.2.2.1 rfl⟩

/-! ### Helper lemmas about index choice and ordering. -/

theorem matchesFilter_apt {st : Store} {f : FilterSpec} {r : TransactionRecord} {a : Nat}
    (hf : f.aptId = some a) (hm : matchesFilter st f r = true) : r.aptId = a := by
  by_contra hne
  have hb : (r.aptId == a) = false := beq_eq_false_iff_ne.mpr hne
  simp [matchesFilter, hf, hb] at hm

theorem filter_candidates_eq (i : IndexChoice) (st : Store) (f : FilterSpec) :
    (candidates i st f).filter (fun r => isValid st.dummy r && matchesFilter st f r) =
      st.records.filter (fun r => isValid st.dummy r && matchesFilter st f r) := by
  cases i with
  | scan => rfl
  | byApartment =>
    cases hf : f.aptId with
    | none => simp [candidates, hf]
    | some a =>
      simp only [candidates, hf]
      rw [List.filter_filter]
      apply List.filter_congr
      intro r _
      cases hm : (isValid st.dummy r && matchesFilter st f r) with
      | false => simp [hm]
      | true =>
        have hm' := (Bool.and_eq_true _ _).mp hm
        have := matchesFilter_apt hf hm'.2
        simp [hm, this]

/-- C7: with no caller-requested sort key, the output of `search` is sorted
by contract date descending with transaction id ascending as tie-break
(the relation `defaultLE`), and the result is identical whichever index the
executor chose, so identical inputs always give identical sequences. -/
theorem search_order_deterministic :
    ∀ (st : Store) (f : FilterSpec) (i j : IndexChoice),
      searchVia i st f = searchVia j st f ∧
      (∀ out, searchVia i st f = .ok out → out.Sorted defaultLE) := by
  intro st f i j
  constructor
  · unfold searchVia
    by_cases hv : rangesValid f
    · rw [if_pos hv, if_pos hv, filter_candidates_eq i, filter_candidates_eq j]
    · rw [if_neg hv, if_neg hv]
  · intro out h
    unfold searchVia at h
    by_cases hv : rangesValid f
    · rw [if_pos hv] at h
      have hout := (Except.ok.inj h).symm
      subst hout
      exact List.sorted_insertionSort defaultLE _
    · rw [if_neg hv] at h
      cases h

/-- C7 witness: on the example store with the empty filter, the scan path
and the by-apartment path return the same sequence, and the returned
sequence is sorted in the default order. -/
theorem search_order_deterministic_witness :
    searchVia .scan exStore emptyFilter = searchVia .byApartment exStore emptyFilter ∧
      List.Sorted defaultLE [exRecord2, exRecord1] :=
  ⟨(search_order_deterministic exStore emptyFilter .scan .byApartment).1,
   (search_order_deterministic exStore emptyFilter .scan .byApartment).2
     [exRecord2, exRecord1] rfl⟩

end RealEstate
